import Mathlib

/-!
Shallow embedding of the transaction classification and budget-analytics
pipeline of `src/app.py` (Expense-Tracker-AI).

Amounts are embedded as rationals (`ℚ`); the float literal `1.2` of the
source becomes the exact rational `1.2 = 6/5`.  Raw cells are embedded
together with their parse outcome: a raw `Date` cell is `none` when the
cell is missing (NaN), `some none` when present but unparseable by
`pd.to_datetime(..., errors=\x27coerce\x27)` (coerced to NaT), and
`some (some d)` when it parses to the calendar date `d`; a raw `Amount`
cell is `none` when missing, `some none` when present but non-numeric
(so that `astype(float)` raises `ValueError`), and `some (some q)` when
numeric with value `q`.
-/

namespace ExpenseTracker

/-- Calendar date as far as the pipeline observes it: `YearMonth`
(`to_period(\x27M\x27)`) only uses year and month; the day never influences
any later output. -/
structure Date where
  year : Nat
  month : Nat
  day : Nat
deriving DecidableEq, Repr

/-- The closed seven-label category taxonomy of `categorize`
(src/app.py lines 23-38). -/
inductive Category where
  | Food
  | Transport
  | Utilities
  | Shopping
  | Salary
  | Entertainment
  | Other
deriving DecidableEq, Repr

/-- The label string of a category, as it appears in the `Category`
column of the dataframe. -/
def Category.name : Category → String
  | .Food => "Food"
  | .Transport => "Transport"
  | .Utilities => "Utilities"
  | .Shopping => "Shopping"
  | .Salary => "Salary"
  | .Entertainment => "Entertainment"
  | .Other => "Other"

/-- Containment of `n` as a contiguous substring of `h` (Python `n in h`
on strings), decided by scanning every suffix. -/
def isSubstring (n h : List Char) : Bool :=
  (List.range (h.length + 1)).any (fun i => n.isPrefixOf (h.drop i))

/-- Python `needle in haystack` for strings. -/
def strContains (haystack needle : String) : Bool :=
  isSubstring needle.data haystack.data

/-- Python `description.lower()` (all keywords of the source are ASCII,
so per-character `Char.toLower` is the exact behaviour observed). -/
def lowerString (s : String) : String :=
  String.mk (s.data.map Char.toLower)

/-- src/app.py lines 23-38: `categorize(description)`.  Lower-cases the
description and tests the keyword groups in the if/elif order of the
source, returning `Other` when nothing matches. -/
def categorize (description : String) : Category :=
  let d := lowerString description
  if strContains d "zomato" || strContains d "swiggy" || strContains d "restaurant" then
    .Food
  else if strContains d "uber" || strContains d "ola" || strContains d "fuel" || strContains d "petrol" then
    .Transport
  else if strContains d "electricity" || strContains d "bill" || strContains d "internet" then
    .Utilities
  else if strContains d "amazon" || strContains d "flipkart" || strContains d "shopping" || strContains d "big bazaar" then
    .Shopping
  else if strContains d "salary" || strContains d "income" then
    .Salary
  else if strContains d "netflix" then
    .Entertainment
  else
    .Other

/-- The keyword groups of the taxonomy in their fixed precedence order
(spec section 3); used to state that `categorize` is first-match ordered
keyword dispatch. -/
def keywordGroups : List (Category × List String) :=
  [ (.Food, ["zomato", "swiggy", "restaurant"]),
    (.Transport, ["uber", "ola", "fuel", "petrol"]),
    (.Utilities, ["electricity", "bill", "internet"]),
    (.Shopping, ["amazon", "flipkart", "shopping", "big bazaar"]),
    (.Salary, ["salary", "income"]),
    (.Entertainment, ["netflix"]) ]

/-- Modelled from the spec: ordered first-match keyword dispatch over a
group list, the reference formulation `categorize` is compared against. -/
def matchGroups (d : String) : List (Category × List String) → Category
  | [] => .Other
  | (c, kws) :: rest =>
    if kws.any (fun k => strContains d k) then c else matchGroups d rest

/-- Modelled from the spec: lower-case, then first-match dispatch in
taxonomy order, defaulting to `Other`. -/
def categorizeSpec (description : String) : Category :=
  matchGroups (lowerString description) keywordGroups

/-- One raw input row.  `extras` holds the cells of any extra,
non-required columns of the uploaded table (`none` = missing/NaN). -/
structure RawRow where
  date : Option (Option Date)
  description : Option String
  amount : Option (Option ℚ)
  extras : List (Option String)
deriving DecidableEq, Repr

/-- The uploaded table: which required columns are present, plus the
rows.  Extra columns are represented only through each row's `extras`
cells. -/
structure RawTable where
  hasDate : Bool
  hasDescription : Bool
  hasAmount : Bool
  rows : List RawRow
deriving DecidableEq, Repr

/-- The fatal errors the load phase can raise: `KeyError` on a missing
column (`df[...]`), `ValueError` from `astype(float)` on a non-numeric
amount. -/
inductive LoadErr where
  | keyError (column : String)
  | valueError
deriving DecidableEq, Repr

/-- src/app.py line 14: `df.dropna(inplace=True)` keeps a row iff no
cell of the row — in any column the table has, extra columns included —
is missing. -/
def dropnaKeep (t : RawTable) (r : RawRow) : Bool :=
  (!t.hasDate || r.date.isSome) &&
  (!t.hasDescription || r.description.isSome) &&
  (!t.hasAmount || r.amount.isSome) &&
  r.extras.all (fun c => c.isSome)

/-- Rows surviving src/app.py line 14 (`df.dropna`). -/
def rowsAfterDropna (t : RawTable) : List RawRow :=
  t.rows.filter (dropnaKeep t)

/-- The parse outcome of a row's `Date` cell
(`pd.to_datetime(..., errors=\x27coerce\x27)`, line 17): `none` when the cell
is missing or unparseable. -/
def parsedDate (r : RawRow) : Option Date :=
  r.date.bind id

/-- Rows surviving lines 14, 17 and 18: `dropna`, then
`dropna(subset=[\x27Date\x27])` after date coercion. -/
def normalizedRows (t : RawTable) : List RawRow :=
  (rowsAfterDropna t).filter (fun r => (parsedDate r).isSome)

/-- Predicate on which `astype(float)` raises: exactly the present but
non-numeric `Amount` cells (a missing cell would already have been
dropped by `dropna`). -/
def isNonNumeric : Option (Option ℚ) → Bool
  | some none => true
  | _ => false

/-- One validated ledger transaction (a cleaned row). -/
structure Txn where
  date : Date
  description : String
  amount : ℚ
deriving DecidableEq, Repr

/-- The transaction a surviving raw row becomes.  The defaults are never
reached on rows that survive normalization with the required columns
present. -/
def mkTxn (r : RawRow) : Txn :=
  { date := (parsedDate r).getD ⟨0, 0, 0⟩
    description := r.description.getD ""
    amount := (r.amount.bind id).getD 0 }

/-- src/app.py lines 13-19 and the `df[\x27Description\x27]` access of line
40, in source order: `KeyError \x27Date\x27` (line 17), `KeyError \x27Amount\x27`
then `ValueError` (line 19), `KeyError \x27Description\x27` (line 40); if none
of these is raised the normalized rows become the ledger. -/
def load (t : RawTable) : Except LoadErr (List Txn) :=
  if !t.hasDate then .error (.keyError "Date")
  else if !t.hasAmount then .error (.keyError "Amount")
  else if (normalizedRows t).any (fun r => isNonNumeric r.amount) then .error .valueError
  else if !t.hasDescription then .error (.keyError "Description")
  else .ok ((normalizedRows t).map mkTxn)

/-- src/app.py line 20: `\x27Income\x27 if x > 0 else \x27Expense\x27`. -/
def typeOf (x : ℚ) : String :=
  if x > 0 then "Income" else "Expense"

/-- Zero-padded month, as produced by `to_period(\x27M\x27)`. -/
def pad2 (n : Nat) : String :=
  if n < 10 then "0" ++ Nat.repr n else Nat.repr n

/-- src/app.py line 41: the `YYYY-MM` string of a date. -/
def yearMonthOf (d : Date) : String :=
  Nat.repr d.year ++ "-" ++ pad2 d.month

/-- The expense selection `df[df[\x27Type\x27] == \x27Expense\x27]`. -/
def expenseRows (l : List Txn) : List Txn :=
  l.filter (fun t => typeOf t.amount == "Expense")

/-- The income selection `df[df[\x27Type\x27] == \x27Income\x27]`. -/
def incomeRows (l : List Txn) : List Txn :=
  l.filter (fun t => typeOf t.amount == "Income")

/-- src/app.py line 47: `total_income`. -/
def total_income (l : List Txn) : ℚ :=
  ((incomeRows l).map Txn.amount).sum

/-- src/app.py line 48: `total_expense` (negated sum of expense
amounts). -/
def total_expense (l : List Txn) : ℚ :=
  -((expenseRows l).map Txn.amount).sum

/-- src/app.py line 49: `balance`. -/
def balance (l : List Txn) : ℚ :=
  total_income l - total_expense l

/-- The value `groupby(key)[\x27Amount\x27].sum()` computes for one group
key. -/
def groupSum {κ : Type} [DecidableEq κ] (key : Txn → κ) (rows : List Txn) (k : κ) : ℚ :=
  ((rows.filter (fun t => key t = k)).map Txn.amount).sum

/-- Lexicographic code-point order on character lists — the order pandas
uses when sorting string group keys. -/
def charListLe : List Char → List Char → Bool
  | [], _ => true
  | _ :: _, [] => false
  | a :: as, b :: bs =>
    if a.toNat < b.toNat then true
    else if b.toNat < a.toNat then false
    else charListLe as bs

/-- Lexicographic order on strings (pandas sort order for string keys). -/
def strLe (a b : String) : Bool :=
  charListLe a.data b.data

/-- The group keys of a pandas `groupby`: the distinct keys, sorted
ascending (pandas sorts group keys by default). -/
def monthKeys (rows : List Txn) : List String :=
  List.insertionSort (fun a b => strLe a b = true)
    ((rows.map (fun t => yearMonthOf t.date)).dedup)

/-- src/app.py lines 57-58: expense rows grouped by `YearMonth`, amounts
summed per month, then the series negated. -/
def monthly_expense (l : List Txn) : List (String × ℚ) :=
  let exp := expenseRows l
  (monthKeys exp).map (fun m => (m, -groupSum (fun t => yearMonthOf t.date) exp m))

/-- Mean of a list of rationals (`Series.mean`); never consulted on an
empty series by any downstream consumer. -/
def mean (xs : List ℚ) : ℚ :=
  xs.sum / xs.length

/-- src/app.py lines 80-81: `threshold = monthly_expense.mean() * 1.2`. -/
def threshold (series : List (String × ℚ)) : ℚ :=
  mean (series.map Prod.snd) * (1.2 : ℚ)

/-- The at-risk status string of src/app.py line 86. -/
def riskStatus : String := "🔴 Overspending Risk"

/-- The within-budget status string of src/app.py line 86. -/
def budgetStatus : String := "🟢 Within Budget"

/-- src/app.py line 86: the per-month status lambda. -/
def statusOf (t e : ℚ) : String :=
  if e > t then riskStatus else budgetStatus

/-- src/app.py lines 83-87: the `prediction_df` rows
`(Month, Expense, Status)`. -/
def predictionTable (series : List (String × ℚ)) : List (String × ℚ × String) :=
  series.map (fun p => (p.1, p.2, statusOf (threshold series) p.2))

/-- Distinct categories among the expense rows, sorted by label
(pandas `groupby(\x27Category\x27)` sorts keys). -/
def categoryKeys (rows : List Txn) : List Category :=
  List.insertionSort (fun c d : Category => strLe c.name d.name = true)
    ((rows.map (fun t => categorize t.description)).dedup)

/-- src/app.py line 97: `expense_df.groupby(\x27Category\x27)[\x27Amount\x27].sum()`
(values still carry the sign of the raw amounts). -/
def categoryGroupSums (rows : List Txn) : List (Category × ℚ) :=
  (categoryKeys rows).map (fun c => (c, groupSum (fun t => categorize t.description) rows c))

/-- src/app.py line 98:
`category_expense = -category_expense.sort_values(ascending=True)` —
sort the (non-positive) group sums ascending, then negate every value.
pandas' default `sort_values` kind is unstable, so the order among equal
values is unspecified; the embedding fixes the stable insertion sort. -/
def category_expense (l : List Txn) : List (Category × ℚ) :=
  (List.insertionSort (fun p q : Category × ℚ => p.2 ≤ q.2)
    (categoryGroupSums (expenseRows l))).map (fun p => (p.1, -p.2))

/-- src/app.py line 99: `top_categories = category_expense.head(3)`. -/
def top_categories (l : List Txn) : List (Category × ℚ) :=
  (category_expense l).take 3

/-- src/app.py lines 105-117: the advice string chosen for one
category. -/
def adviceFor (c : Category) : String :=
  if c = .Food then
    "🍔 You’re spending a lot on food. Try cooking at home more often or setting a monthly dining budget."
  else if c = .Shopping then
    "🛍️ High shopping bills detected. Consider limiting impulse buys or setting a wishlist before shopping."
  else if c = .Transport then
    "🚗 Transport costs are high. Try carpooling, using public transport, or optimizing your routes."
  else if c = .Utilities then
    "💡 Utilities seem high. Consider energy-saving habits or reviewing your internet/electricity plans."
  else if c = .Entertainment then
    "📺 Subscriptions and entertainment are adding up. Cancel unused subscriptions or switch to cheaper plans."
  else
    "💡 Spending on **" ++ c.name ++ "** is significant. Try to review if all those purchases were essential."

/-- src/app.py lines 104-117: one advice string per top category, in
order. -/
def advice (l : List Txn) : List String :=
  (top_categories l).map (fun p => adviceFor p.1)

/-- Everything the analytics phases (4-6) derive from the ledger. -/
structure Aggregates where
  total_income : ℚ
  total_expense : ℚ
  balance : ℚ
  monthly_expense : List (String × ℚ)
  prediction : List (String × ℚ × String)
  category_expense : List (Category × ℚ)
  top_categories : List (Category × ℚ)
  advice : List String
deriving DecidableEq, Repr

/-- The aggregates computed from a loaded ledger (phases 4-6 of
src/app.py). -/
def aggregates (l : List Txn) : Aggregates :=
  { total_income := total_income l
    total_expense := total_expense l
    balance := balance l
    monthly_expense := monthly_expense l
    prediction := predictionTable (monthly_expense l)
    category_expense := category_expense l
    top_categories := top_categories l
    advice := advice l }

/-- The whole run on one uploaded table: load (raising any fatal error
before anything is emitted), then the analytics.  An `Except.error`
result carries no partial output. -/
def pipeline (t : RawTable) : Except LoadErr (List Txn × Aggregates) :=
  (load t).map (fun ledger => (ledger, aggregates ledger))

theorem categorize_eq_spec (s : String) : categorize s = categorizeSpec s := by
  simp only [categorize, categorizeSpec, keywordGroups, matchGroups,
    List.any_cons, List.any_nil, Bool.or_false, Bool.or_assoc]

/-- C1: `categorize` is a total, deterministic function into the seven-label
taxonomy that lower-cases its input and performs first-match keyword dispatch
over the groups of `keywordGroups` in their fixed precedence order, returning
`Other` when no keyword matches; a description containing both "uber" and
"bill" resolves to `Transport`. -/
theorem claim_C1_categorize_ordered_dispatch :
    (∀ s : String, categorize s = categorizeSpec s) ∧
    categorize "Uber monthly bill" = Category.Transport :=
  ⟨categorize_eq_spec, by decide⟩

/-- C8: a row's derived `Type` is `"Income"` iff its amount is strictly
positive, and an amount of `0` is typed `"Expense"`. -/
theorem claim_C8_income_iff_positive :
    (∀ x : ℚ, (typeOf x = "Income" ↔ 0 < x)) ∧ typeOf 0 = "Expense" := by
  constructor
  · intro x
    by_cases h : x > 0
    · simp [typeOf, h]
    · simp [typeOf, h]
  · simp [typeOf]

/-- C8 witness at the concrete amounts `5` and `0`. -/
theorem claim_C8_witness : typeOf 5 = "Income" ∧ typeOf 0 = "Expense" :=
  ⟨(claim_C8_income_iff_positive.1 5).mpr (by norm_num),
    claim_C8_income_iff_positive.2⟩

theorem risk_ne_budget : riskStatus ≠ budgetStatus := by decide

/-- The worked overspending example of the spec: monthly expenses
`[100, 100, 100, 500]`. -/
def exSeries : List (String × ℚ) :=
  [("2024-01", 100), ("2024-02", 100), ("2024-03", 100), ("2024-04", 500)]

/-- C2: on a non-empty monthly series the detector uses the single global
threshold `mean * 1.2` and labels each month independently, `AtRisk` exactly
when its expense strictly exceeds the threshold; on `[100, 100, 100, 500]`
the threshold is `240`, the `500` month is at risk and the three `100`
months are within budget. -/
theorem claim_C2_detector_threshold (series : List (String × ℚ)) (hne : series ≠ []) :
    threshold series = mean (series.map Prod.snd) * (1.2 : ℚ) ∧
    (∀ m e s, (m, e, s) ∈ predictionTable series →
      ((s = riskStatus ↔ e > threshold series) ∧
        (s = budgetStatus ↔ ¬ e > threshold series))) ∧
    threshold exSeries = 240 ∧
    predictionTable exSeries =
      [("2024-01", 100, budgetStatus), ("2024-02", 100, budgetStatus),
        ("2024-03", 100, budgetStatus), ("2024-04", 500, riskStatus)] := by
  refine ⟨rfl, ?_, ?_, ?_⟩
  · intro m e s hmem
    simp only [predictionTable, List.mem_map] at hmem
    obtain ⟨p, hp, heq⟩ := hmem
    simp only [Prod.mk.injEq] at heq
    obtain ⟨hm, he, hs⟩ := heq
    subst hm; subst he; subst hs
    by_cases hc : p.2 > threshold series
    · rw [statusOf, if_pos hc]
      exact ⟨⟨fun _ => hc, fun _ => rfl⟩,
        ⟨fun hb => absurd hb.symm (Ne.symm risk_ne_budget), fun hn => absurd hc hn⟩⟩
    · rw [statusOf, if_neg hc]
      exact ⟨⟨fun hb => absurd hb.symm risk_ne_budget, fun hgt => absurd hgt hc⟩,
        ⟨fun _ => hc, fun _ => rfl⟩⟩
  · norm_num [threshold, mean, exSeries]
  · norm_num [predictionTable, exSeries, statusOf, threshold, mean, riskStatus, budgetStatus]

/-- C2 witness: the spec's four-month series is non-empty and the theorem
instantiates on it. -/
theorem claim_C2_witness :
    threshold exSeries = 240 ∧
    predictionTable exSeries =
      [("2024-01", 100, budgetStatus), ("2024-02", 100, budgetStatus),
        ("2024-03", 100, budgetStatus), ("2024-04", 500, riskStatus)] :=
  ⟨(claim_C2_detector_threshold exSeries (by simp [exSeries])).2.2.1,
    (claim_C2_detector_threshold exSeries (by simp [exSeries])).2.2.2⟩

theorem exists_mul_length_le_sum (l : List ℚ) (hne : l ≠ []) :
    ∃ x ∈ l, x * l.length ≤ l.sum := by
  induction l with
  | nil => exact absurd rfl hne
  | cons a l ih =>
    rcases eq_or_ne l [] with rfl | hl
    · refine ⟨a, List.mem_cons_self a [], ?_⟩
      simp
    · obtain ⟨x, hx, hxle⟩ := ih hl
      have hcast : (((a :: l).length : ℕ) : ℚ) = (l.length : ℚ) + 1 := by
        push_cast [List.length_cons]
        ring
      by_cases hax : a ≤ x
      · refine ⟨a, List.mem_cons_self a l, ?_⟩
        have hL : (0 : ℚ) ≤ (l.length : ℚ) := by positivity
        have h1 : a * (l.length : ℚ) ≤ x * (l.length : ℚ) :=
          mul_le_mul_of_nonneg_right hax hL
        rw [hcast, List.sum_cons]
        have hexp : a * ((l.length : ℚ) + 1) = a * (l.length : ℚ) + a := by ring
        rw [hexp]
        linarith
      · push_neg at hax
        refine ⟨x, List.mem_cons_of_mem a hx, ?_⟩
        rw [hcast, List.sum_cons]
        have hexp : x * ((l.length : ℚ) + 1) = x * (l.length : ℚ) + x := by ring
        rw [hexp]
        linarith [hax.le]

theorem exists_le_mean (l : List ℚ) (hne : l ≠ []) : ∃ x ∈ l, x ≤ mean l := by
  obtain ⟨x, hx, hle⟩ := exists_mul_length_le_sum l hne
  have hlen : (0 : ℚ) < (l.length : ℚ) := by
    have h0 : 0 < l.length := List.length_pos.mpr hne
    exact_mod_cast h0
  refine ⟨x, hx, ?_⟩
  rw [mean, le_div_iff₀ hlen]
  exact hle

/-- C10: on a non-empty monthly series whose values are all non-negative the
detector labels at least one month within budget — the minimum month sits at
or below the mean, hence at or below the `mean * 1.2` threshold. -/
theorem claim_C10_some_month_within_budget (series : List (String × ℚ))
    (hne : series ≠ []) (hnn : ∀ p ∈ series, 0 ≤ p.2) :
    ∃ m e, (m, e, budgetStatus) ∈ predictionTable series := by
  have hvals : series.map Prod.snd ≠ [] := by simpa using hne
  obtain ⟨x, hx, hxm⟩ := exists_le_mean _ hvals
  obtain ⟨p, hp, hpx⟩ := List.mem_map.mp hx
  have hx0 : 0 ≤ x := hpx ▸ hnn p hp
  have hmean0 : 0 ≤ mean (series.map Prod.snd) := le_trans hx0 hxm
  have hxth : x ≤ threshold series := by
    rw [threshold]
    nlinarith
  refine ⟨p.1, p.2, ?_⟩
  have hst : statusOf (threshold series) p.2 = budgetStatus := by
    rw [statusOf, if_neg]
    exact not_lt.mpr (hpx ▸ hxth)
  exact List.mem_map.mpr ⟨p, hp, by rw [hst]⟩

/-- C10 witness on the one-month series `[("2024-01", 100)]`. -/
theorem claim_C10_witness :
    ∃ m e, (m, e, budgetStatus) ∈ predictionTable [("2024-01", (100 : ℚ))] :=
  claim_C10_some_month_within_budget _ (by simp)
    (by
      intro p hp
      simp only [List.mem_singleton] at hp
      rw [hp]
      norm_num)

/-- C4: when the table has the required columns and zero rows survive
normalization, the whole run succeeds with the empty ledger and every
aggregate empty or zero: no month ever sees the undefined mean-based
threshold, and nothing is raised. -/
theorem claim_C4_empty_ledger_degrades (t : RawTable) (hd : t.hasDate = true)
    (hde : t.hasDescription = true) (ha : t.hasAmount = true)
    (hempty : normalizedRows t = []) :
    pipeline t = .ok ([],
      { total_income := 0, total_expense := 0, balance := 0,
        monthly_expense := [], prediction := [], category_expense := [],
        top_categories := [], advice := [] }) := by
  rw [pipeline, load, hd, hde, ha, hempty]
  simp only [Bool.not_true, Bool.false_eq_true, if_false, List.any_nil, List.map_nil,
    Except.map]
  refine congrArg Except.ok (congrArg _ ?_)
  rw [aggregates]
  simp [total_income, total_expense, balance, monthly_expense, monthKeys,
    predictionTable, category_expense, top_categories, advice, categoryGroupSums,
    categoryKeys, incomeRows, expenseRows, List.insertionSort]

/-- C4 witness: the table with the three required columns and no rows. -/
theorem claim_C4_witness :
    pipeline ⟨true, true, true, []⟩ = .ok ([],
      { total_income := 0, total_expense := 0, balance := 0,
        monthly_expense := [], prediction := [], category_expense := [],
        top_categories := [], advice := [] }) :=
  claim_C4_empty_ledger_degrades _ rfl rfl rfl rfl

/-- C7: a table lacking any of the required columns `Date`, `Description`
or `Amount` makes the whole run fail with a fatal error; the `Except.error`
result carries no aggregate, series or table. -/
theorem claim_C7_missing_column_fatal (t : RawTable)
    (h : t.hasDate = false ∨ t.hasDescription = false ∨ t.hasAmount = false) :
    ∃ e, pipeline t = .error e := by
  cases hD : t.hasDate with
  | false => exact ⟨.keyError "Date", by rw [pipeline, load, hD]; rfl⟩
  | true =>
    cases hA : t.hasAmount with
    | false => exact ⟨.keyError "Amount", by rw [pipeline, load, hD, hA]; rfl⟩
    | true =>
      have hDe : t.hasDescription = false := by
        rcases h with h | h | h
        · rw [hD] at h; exact absurd h (by simp)
        · exact h
        · rw [hA] at h; exact absurd h (by simp)
      by_cases hv : (normalizedRows t).any (fun r => isNonNumeric r.amount)
      · exact ⟨.valueError, by rw [pipeline, load, hD, hA]; simp [hv, Except.map]⟩
      · refine ⟨.keyError "Description", ?_⟩
        rw [pipeline, load, hD, hA, hDe]
        simp only [Bool.not_true, Bool.false_eq_true, if_false]
        rw [if_neg (by simp [hv]), if_pos (by simp)]
        rfl

/-- C7 witness: a table whose `Amount` column is absent. -/
theorem claim_C7_witness :
    ∃ e, pipeline ⟨true, true, false, []⟩ = .error e :=
  claim_C7_missing_column_fatal _ (Or.inr (Or.inr rfl))

/-- A row whose `Amount` cell is present but non-numeric (`"abc"`). -/
def exBadAmountRow : RawRow :=
  ⟨some (some ⟨2024, 1, 5⟩), some "Zomato order", some none, []⟩

/-- A fully valid row. -/
def exGoodRow : RawRow :=
  ⟨some (some ⟨2024, 1, 20⟩), some "Salary credit", some (some 50000), []⟩

/-- A two-row table, one valid row and one with a non-numeric amount. -/
def exTableC3 : RawTable := ⟨true, true, true, [exGoodRow, exBadAmountRow]⟩

/-- C3 counterexample: on a table with one valid row and one row with a
non-numeric amount the load does not drop the bad row and continue — it
aborts the whole run with `ValueError`, so no `Except.ok` row list is ever
produced. -/
theorem claim_C3_counterexample :
    load exTableC3 = .error .valueError ∧
    ∀ rows : List Txn, load exTableC3 ≠ .ok rows := by
  have h1 : load exTableC3 = .error .valueError := rfl
  refine ⟨h1, fun rows h => ?_⟩
  rw [h1] at h
  exact Except.noConfusion h

/-- C3 amended: a present but non-numeric `Amount` value in any row that
survives the missing-value and date filters is a fatal error — `astype
(float)` raises `ValueError` and the whole load fails, instead of dropping
that row and continuing. -/
theorem claim_C3_amended_fatal_value_error (t : RawTable) (hd : t.hasDate = true)
    (ha : t.hasAmount = true) (hbad : ∃ r ∈ normalizedRows t, r.amount = some none) :
    load t = .error .valueError := by
  rw [load, hd, ha]
  have hany : (normalizedRows t).any (fun r => isNonNumeric r.amount) = true := by
    obtain ⟨r, hr, hra⟩ := hbad
    exact List.any_eq_true.mpr ⟨r, hr, by rw [hra]; rfl⟩
  simp [hany]

/-- C3 amended witness at the concrete two-row table. -/
theorem claim_C3_amended_witness : load exTableC3 = .error .valueError :=
  claim_C3_amended_fatal_value_error exTableC3 rfl rfl
    ⟨exBadAmountRow, by decide, rfl⟩

/-- A valid row of a table that also has one extra column, whose cell is
missing in this row. -/
def exExtraNaNRow : RawRow :=
  ⟨some (some ⟨2024, 1, 5⟩), some "Zomato order", some (some (-450)), [none]⟩

/-- A valid row whose extra-column cell is present. -/
def exExtraOkRow : RawRow :=
  ⟨some (some ⟨2024, 2, 7⟩), some "Uber ride", some (some (-120)), [some "note"]⟩

/-- A one-row table where the only missing value sits in an extra,
non-required column. -/
def exTableC6 : RawTable := ⟨true, true, true, [exExtraNaNRow]⟩

/-- A two-row table with an extra column: one row's extra cell is missing,
the other's is present. -/
def exTableC6w : RawTable := ⟨true, true, true, [exExtraNaNRow, exExtraOkRow]⟩

/-- C6 counterexample: a row that is valid in every required field but has
a missing value in an extra column IS dropped by `df.dropna()` — the load
returns the empty ledger, not the one-row ledger the claim requires. -/
theorem claim_C6_counterexample :
    load exTableC6 = .ok [] ∧ load exTableC6 ≠ .ok [mkTxn exExtraNaNRow] := by
  have h1 : load exTableC6 = .ok [] := rfl
  refine ⟨h1, fun h => ?_⟩
  rw [h1] at h
  simp at h

/-- Whether a row of a table having exactly the required columns plus any
extra columns survives the load filters: every cell present (required or
extra) and the date parseable. -/
def keepRow (r : RawRow) : Bool :=
  r.date.isSome && r.description.isSome && r.amount.isSome &&
  r.extras.all (fun c => c.isSome) && (parsedDate r).isSome

/-- C6 amended: the loader drops a row exactly when some cell of the row —
in a required column or in an extra column — is missing, or when its date
fails to parse; beyond missingness the values of extra columns are ignored
(only `Option.isSome` of an extra cell is consulted). -/
theorem claim_C6_amended_drop_characterization (t : RawTable)
    (hd : t.hasDate = true) (hde : t.hasDescription = true) (ha : t.hasAmount = true)
    (hnum : ∀ r ∈ normalizedRows t, r.amount ≠ some none) :
    load t = .ok ((t.rows.filter keepRow).map mkTxn) := by
  have hrows : normalizedRows t = t.rows.filter keepRow := by
    rw [normalizedRows, rowsAfterDropna, List.filter_filter]
    apply List.filter_congr
    intro r _
    rw [dropnaKeep, hd, hde, ha, keepRow]
    cases r.date.isSome <;> cases r.description.isSome <;> cases r.amount.isSome <;>
      cases r.extras.all (fun c => c.isSome) <;> cases (parsedDate r).isSome <;> rfl
  have hany : (normalizedRows t).any (fun r => isNonNumeric r.amount) = false := by
    rw [List.any_eq_false]
    intro r hr
    have := hnum r hr
    cases hcell : r.amount with
    | none => simp [isNonNumeric]
    | some v =>
      cases v with
      | none => exact absurd hcell this
      | some q => simp [isNonNumeric]
  rw [load, hd, hde, ha, hany, hrows]
  rfl

/-- C6 amended witness: in the two-row table with an extra column, the row
with the missing extra cell is dropped and the row with the present extra
cell is kept. -/
theorem claim_C6_amended_witness :
    load exTableC6w = .ok ((exTableC6w.rows.filter keepRow).map mkTxn) ∧
    (exTableC6w.rows.filter keepRow).map mkTxn = [mkTxn exExtraOkRow] :=
  ⟨claim_C6_amended_drop_characterization exTableC6w rfl rfl rfl (by decide),
    by decide⟩

theorem sum_map_add {κ : Type} (l : List κ) (f g : κ → ℚ) :
    (l.map (fun x => f x + g x)).sum = (l.map f).sum + (l.map g).sum := by
  induction l with
  | nil => simp
  | cons a l ih =>
    simp [ih]
    ring

theorem sum_map_neg {κ : Type} (l : List κ) (f : κ → ℚ) :
    (l.map (fun x => -f x)).sum = -((l.map f).sum) := by
  induction l with
  | nil => simp
  | cons a l ih =>
    simp [ih]
    ring

theorem sum_ite_single {κ : Type} [DecidableEq κ] (keys : List κ) (k0 : κ) (v : ℚ)
    (hnd : keys.Nodup) (hk : k0 ∈ keys) :
    (keys.map (fun k => if k0 = k then v else 0)).sum = v := by
  induction keys with
  | nil => exact absurd hk (List.not_mem_nil k0)
  | cons k ks ih =>
    obtain ⟨hks, hnd'⟩ := List.nodup_cons.mp hnd
    rw [List.map_cons, List.sum_cons]
    by_cases hkk : k0 = k
    · rw [if_pos hkk]
      have hz : (ks.map (fun k => if k0 = k then v else 0)).sum = 0 := by
        apply List.sum_eq_zero
        intro x hx
        obtain ⟨k2, hk2, hxeq⟩ := List.mem_map.mp hx
        rw [← hxeq, if_neg]
        intro hcon
        exact hks (hkk ▸ hcon ▸ hk2)
      rw [hz, add_zero]
    · rw [if_neg hkk, zero_add]
      exact ih hnd' ((List.mem_cons.mp hk).resolve_left hkk)

theorem sum_fibers {α κ : Type} [DecidableEq κ] (key : α → κ) (val : α → ℚ) :
    ∀ (l : List α) (keys : List κ), keys.Nodup → (∀ a ∈ l, key a ∈ keys) →
      (keys.map (fun k => ((l.filter (fun a => key a = k)).map val).sum)).sum
        = (l.map val).sum := by
  intro l
  induction l with
  | nil =>
    intro keys _ _
    simp
  | cons a l ih =>
    intro keys hnd hcov
    have hstep : ∀ k : κ, (((a :: l).filter (fun x => key x = k)).map val).sum
        = (if key a = k then val a else 0)
          + ((l.filter (fun x => key x = k)).map val).sum := by
      intro k
      by_cases hk : key a = k
      · rw [List.filter_cons_of_pos (by simp [hk]), List.map_cons, List.sum_cons, if_pos hk]
      · rw [List.filter_cons_of_neg (by simp [hk]), if_neg hk, zero_add]
    calc (keys.map (fun k => (((a :: l).filter (fun x => key x = k)).map val).sum)).sum
        = (keys.map (fun k => (if key a = k then val a else 0)
            + ((l.filter (fun x => key x = k)).map val).sum)).sum := by
          rw [List.map_congr_left (fun k _ => hstep k)]
      _ = (keys.map (fun k => if key a = k then val a else 0)).sum
            + (keys.map (fun k => ((l.filter (fun x => key x = k)).map val).sum)).sum :=
          sum_map_add keys _ _
      _ = val a + (l.map val).sum := by
          rw [sum_ite_single keys (key a) (val a) hnd (hcov a (List.mem_cons_self a l)),
            ih keys hnd (fun x hx => hcov x (List.mem_cons_of_mem a hx))]
      _ = ((a :: l).map val).sum := by rw [List.map_cons, List.sum_cons]

set_option maxHeartbeats 1000000 in
/-- C9: the grand expense total equals the sum of the per-category expense
magnitudes — every expense row lands in exactly one category group, so the
fiber sums over the distinct categories present recover the total. -/
theorem claim_C9_total_expense_eq_category_sum (l : List Txn) :
    total_expense l = ((category_expense l).map Prod.snd).sum := by
  rw [total_expense, category_expense, List.map_map]
  have h1 : (Prod.snd ∘ fun p : Category × ℚ => (p.1, -p.2))
      = fun p : Category × ℚ => -p.2 := rfl
  rw [h1]
  have hperm := List.perm_insertionSort (fun p q : Category × ℚ => p.2 ≤ q.2)
    (categoryGroupSums (expenseRows l))
  rw [List.Perm.sum_eq (hperm.map (fun p : Category × ℚ => -p.2))]
  rw [categoryGroupSums, List.map_map]
  have h2 : ((fun p : Category × ℚ => -p.2)
        ∘ fun c => (c, groupSum (fun t => categorize t.description) (expenseRows l) c))
      = fun c => -(groupSum (fun t => categorize t.description) (expenseRows l) c) := rfl
  rw [h2, sum_map_neg, neg_inj, categoryKeys]
  have hperm2 := List.perm_insertionSort (fun c d : Category => strLe c.name d.name = true)
    (((expenseRows l).map (fun t => categorize t.description)).dedup)
  rw [List.Perm.sum_eq (hperm2.map _)]
  have h3 : groupSum (fun t => categorize t.description) (expenseRows l)
      = fun k => (((expenseRows l).filter
          (fun a => categorize a.description = k)).map Txn.amount).sum := by
    funext k
    rfl
  rw [h3]
  exact (sum_fibers (fun t => categorize t.description) Txn.amount (expenseRows l)
    (((expenseRows l).map (fun t => categorize t.description)).dedup)
    (List.nodup_dedup _)
    (fun a ha => List.mem_dedup.mpr (List.mem_map_of_mem _ ha))).symm

instance : IsTotal (Category × ℚ) (fun p q => p.2 ≤ q.2) :=
  ⟨fun a b => le_total a.2 b.2⟩

instance : IsTrans (Category × ℚ) (fun p q => p.2 ≤ q.2) :=
  ⟨fun _ _ _ hab hbc => le_trans hab hbc⟩

/-- C5: the advisor keeps `min 3 k` categories out of the `k` distinct
expense categories, every kept category has expense magnitude at least that
of every dropped one, and it emits exactly one advice string per kept
category — the fixed text for the five mapped categories and the generic
templated message naming the category otherwise. -/
theorem claim_C5_advisor_top3 (l : List Txn) :
    (aggregates l).top_categories.length
        = min 3 ((expenseRows l).map (fun t => categorize t.description)).dedup.length ∧
    (∀ p ∈ (aggregates l).top_categories,
      ∀ q ∈ (aggregates l).category_expense.drop 3, q.2 ≤ p.2) ∧
    (aggregates l).advice = (aggregates l).top_categories.map (fun p => adviceFor p.1) ∧
    adviceFor .Food = "🍔 You’re spending a lot on food. Try cooking at home more often or setting a monthly dining budget." ∧
    adviceFor .Shopping = "🛍️ High shopping bills detected. Consider limiting impulse buys or setting a wishlist before shopping." ∧
    adviceFor .Transport = "🚗 Transport costs are high. Try carpooling, using public transport, or optimizing your routes." ∧
    adviceFor .Utilities = "💡 Utilities seem high. Consider energy-saving habits or reviewing your internet/electricity plans." ∧
    adviceFor .Entertainment = "📺 Subscriptions and entertainment are adding up. Cancel unused subscriptions or switch to cheaper plans." ∧
    (∀ c : Category, c ≠ .Food → c ≠ .Shopping → c ≠ .Transport → c ≠ .Utilities →
      c ≠ .Entertainment →
      adviceFor c = "💡 Spending on **" ++ c.name
        ++ "** is significant. Try to review if all those purchases were essential.") := by
  refine ⟨?_, ?_, rfl, rfl, rfl, rfl, rfl, rfl, ?_⟩
  · show (top_categories l).length = _
    rw [top_categories, List.length_take, category_expense, List.length_map,
      List.length_insertionSort, categoryGroupSums, List.length_map, categoryKeys,
      List.length_insertionSort]
  · have hsorted : List.Sorted (fun p q : Category × ℚ => p.2 ≤ q.2)
        (List.insertionSort (fun p q : Category × ℚ => p.2 ≤ q.2)
          (categoryGroupSums (expenseRows l))) :=
      List.sorted_insertionSort _ _
    have hpw : List.Pairwise (fun p q : Category × ℚ => q.2 ≤ p.2) (category_expense l) := by
      rw [category_expense]
      exact List.Pairwise.map _ (fun a b hab => by simpa using hab) hsorted
    have hsplit := List.take_append_drop 3 (category_expense l)
    rw [← hsplit] at hpw
    intro p hp q hq
    exact (List.pairwise_append.mp hpw).2.2 p hp q hq
  · intro c h1 h2 h3 h4 h5
    cases c with
    | Food => exact absurd rfl h1
    | Shopping => exact absurd rfl h2
    | Transport => exact absurd rfl h3
    | Utilities => exact absurd rfl h4
    | Entertainment => exact absurd rfl h5
    | Salary => rfl
    | Other => rfl

/-- Example ledger rows for the advisor: four expense transactions in four
distinct categories. -/
def exTxnFood : Txn := ⟨⟨2024, 1, 3⟩, "Zomato order", -450⟩

/-- Shopping example transaction. -/
def exTxnShop : Txn := ⟨⟨2024, 1, 9⟩, "Amazon buy", -300⟩

/-- Transport example transaction. -/
def exTxnTrans : Txn := ⟨⟨2024, 1, 15⟩, "Uber ride", -200⟩

/-- Uncategorized example transaction. -/
def exTxnMisc : Txn := ⟨⟨2024, 1, 21⟩, "misc stuff", -50⟩

/-- Four-category example ledger. -/
def exLedger : List Txn := [exTxnFood, exTxnShop, exTxnTrans, exTxnMisc]

theorem exLedger_expenseRows : expenseRows exLedger = exLedger := by
  have ht450 : typeOf (-450 : ℚ) = "Expense" := by norm_num [typeOf]
  have ht300 : typeOf (-300 : ℚ) = "Expense" := by norm_num [typeOf]
  have ht200 : typeOf (-200 : ℚ) = "Expense" := by norm_num [typeOf]
  have ht50 : typeOf (-50 : ℚ) = "Expense" := by norm_num [typeOf]
  simp [expenseRows, exLedger, exTxnFood, exTxnShop, exTxnTrans, exTxnMisc,
    ht450, ht300, ht200, ht50]

theorem exLedger_categoryKeys :
    categoryKeys exLedger
      = [Category.Food, Category.Other, Category.Shopping, Category.Transport] := by
  decide

theorem exLedger_groupSums :
    categoryGroupSums exLedger
      = [(Category.Food, -450), (Category.Other, -50),
          (Category.Shopping, -300), (Category.Transport, -200)] := by
  have h : categoryGroupSums exLedger
      = [(Category.Food, (-450 : ℚ) + 0), (Category.Other, (-50 : ℚ) + 0),
          (Category.Shopping, (-300 : ℚ) + 0), (Category.Transport, (-200 : ℚ) + 0)] := rfl
  rw [h]
  norm_num

theorem exLedger_category_expense :
    category_expense exLedger
      = [(Category.Food, 450), (Category.Shopping, 300),
          (Category.Transport, 200), (Category.Other, 50)] := by
  rw [category_expense, exLedger_expenseRows, exLedger_groupSums]
  decide

/-- C5 witness: on the four-category example ledger the advisor keeps
`Food (450)` among the top three and drops `Other (50)`, and the kept
magnitude dominates the dropped one by the claim theorem. -/
theorem claim_C5_witness :
    ((Category.Food, (450 : ℚ)) ∈ (aggregates exLedger).top_categories) ∧
    ((Category.Other, (50 : ℚ)) ∈ (aggregates exLedger).category_expense.drop 3) ∧
    ((50 : ℚ) ≤ (450 : ℚ)) := by
  have hp : (Category.Food, (450 : ℚ)) ∈ (aggregates exLedger).top_categories := by
    show (Category.Food, (450 : ℚ)) ∈ top_categories exLedger
    rw [top_categories, exLedger_category_expense]
    exact List.mem_cons_self _ _
  have hq : (Category.Other, (50 : ℚ)) ∈ (aggregates exLedger).category_expense.drop 3 := by
    show (Category.Other, (50 : ℚ)) ∈ (category_expense exLedger).drop 3
    rw [exLedger_category_expense]
    exact List.mem_cons_self _ _
  exact ⟨hp, hq, (claim_C5_advisor_top3 exLedger).2.1 _ hp _ hq⟩

end ExpenseTracker
